import Mathlib

/-!
Verification of the JochiesLeague check-in backend.

Shallow embedding of the check-in verification and leaderboard logic of
`src/backend/app.py` and the data model of `src/backend/models.py`.

Coordinates are a type parameter `α` and the computed distance lives in a
linearly ordered type `β`; the route handlers of `app.py` are embedded as
pure functions from the request payload and the current ledger (the list of
committed `CheckIn` rows, in insertion order) to a response and the new
ledger.  Instantiating `β := ℝ` and the distance function with the real
haversine formula recovers the source exactly; instantiating with `ℚ` or
`ℕ` gives executable instances for concrete evaluation.
-/

namespace JochiesLeague

/-- Fields of the `users` table row used by the leaderboard/history views
(`models.py`, class `User`): display name and optional avatar. -/
structure UserInfo where
  name : String
  picture : Option String
deriving DecidableEq

/-- A committed `checkins` row (`models.py`, class `CheckIn`): owning user id,
calendar date, completion timestamp, submitted coordinates, optional photo
blob.  Dates and timestamps are modelled as naturals (day number /
instant), coordinates by the parameter `α`. -/
structure CheckInRec (α : Type) where
  user_id : String
  check_in_date : Nat
  check_in_time : Nat
  latitude : α
  longitude : α
  photo_data : Option String
deriving DecidableEq

/-- The ledger: the list of committed check-in rows, in insertion order. -/
abbrev Ledger (α : Type) := List (CheckInRec α)

/-- The lookup `CheckIn.query.filter_by(user_id=..., check_in_date=...).first()`:
first committed row for the given (user, date) pair, if any. -/
def findExisting (user : String) (today : Nat) (L : Ledger α) :
    Option (CheckInRec α) :=
  L.find? fun c => c.user_id == user && c.check_in_date == today

/-- The commit `db.session.add(checkin); db.session.commit()` under the
`unique_user_date` constraint of `models.py`: the insert commits (appending
the row) unless a row with the same (user_id, check_in_date) already
exists, in which case the constraint engine rejects it (`none`,
surfacing as an `IntegrityError` in the source). -/
def dbInsert (c : CheckInRec α) (L : Ledger α) : Option (Ledger α) :=
  if L.any fun r => r.user_id == c.user_id && r.check_in_date == c.check_in_date then
    none
  else
    some (L ++ [c])

/-- The JSON body of a verify-location / check-in request: optional
`latitude`, `longitude` and `photo` fields (absent keys are `none`). -/
structure CheckinData (α : Type) where
  latitude : Option α
  longitude : Option α
  photo : Option String
deriving DecidableEq

/-- Python's `not data.get('photo')`: the photo is missing when the key is
absent or the value is the empty (falsy) string. -/
def photoMissing : Option String → Bool
  | none => true
  | some s => s.isEmpty

/-- Outcomes of `POST /api/verify-location` (`app.py`, `verify_location`). -/
inductive VerifyResult (β : Type) where
  | missingCoords
  | tooFar (distance allowed_radius : β)
  | alreadyCheckedIn (check_in_time : Nat)
  | ok (distance : β)
deriving DecidableEq

/-- Outcomes of `POST /api/checkin` (`app.py`, `checkin`).
`integrityError` is the unhandled storage-constraint violation escaping
`db.session.commit()`. -/
inductive CheckinResult (β : Type) where
  | missingCoords
  | photoRequired
  | tooFar (distance allowed_radius : β)
  | alreadyCheckedIn (check_in_time : Nat)
  | integrityError
  | ok (check_in_time : Nat) (distance : β)
deriving DecidableEq

/-- Handler `verify_location` (`app.py` lines 193-235): missing-coordinate check,
geofence re-check (`distance > ALLOWED_RADIUS_METERS` fails), then
already-checked-in check; no write.  `distfn lat lng` stands for
`haversine_distance(lat, lng, SCIENCE_PARK_LAT, SCIENCE_PARK_LNG)`. -/
def verifyOp [LinearOrder β] (distfn : α → α → β) (radius : β)
    (user : String) (today : Nat)
    (data : Option (CheckinData α)) (L : Ledger α) :
    VerifyResult β × Ledger α :=
  match data with
  | none => (.missingCoords, L)
  | some d =>
    match d.latitude, d.longitude with
    | some lat, some lng =>
      let distance := distfn lat lng
      if radius < distance then
        (.tooFar distance radius, L)
      else
        match findExisting user today L with
        | some existing => (.alreadyCheckedIn existing.check_in_time, L)
        | none => (.ok distance, L)
    | _, _ => (.missingCoords, L)

/-- Handler `checkin` (`app.py` lines 238-295): missing-coordinate check, mandatory
photo check, geofence re-check, already-checked-in check, then the insert
through the storage constraint (`dbInsert`).  `now` is `datetime.utcnow()`
at the moment of the insert. -/
def checkinOp [LinearOrder β] (distfn : α → α → β) (radius : β)
    (user : String) (today now : Nat)
    (data : Option (CheckinData α)) (L : Ledger α) :
    CheckinResult β × Ledger α :=
  match data with
  | none => (.missingCoords, L)
  | some d =>
    match d.latitude, d.longitude with
    | some lat, some lng =>
      if photoMissing d.photo then
        (.photoRequired, L)
      else
        let distance := distfn lat lng
        if radius < distance then
          (.tooFar distance radius, L)
        else
          match findExisting user today L with
          | some existing => (.alreadyCheckedIn existing.check_in_time, L)
          | none =>
            match dbInsert ⟨user, today, now, lat, lng, d.photo⟩ L with
            | some L2 => (.ok now distance, L2)
            | none => (.integrityError, L)
    | _, _ => (.missingCoords, L)

/-- Handler `get_status` (`app.py` lines 297-313): `hasCheckedInToday` — the
existing check-in's timestamp for (user, today), if any; no write. -/
def statusOp (user : String) (today : Nat) (L : Ledger α) :
    Option Nat × Ledger α :=
  ((findExisting user today L).map (·.check_in_time), L)

/-- The query `CheckIn.query.filter_by(check_in_date=...).order_by(...asc()).all()`:
the committed rows of one date, sorted ascending by completion timestamp
(stable, so equal timestamps keep storage order). -/
def dayRows (day : Nat) (L : Ledger α) : Ledger α :=
  (L.filter fun c => c.check_in_date == day).insertionSort
    fun a b => a.check_in_time ≤ b.check_in_time

/-- One entry of the live daily leaderboard JSON (`get_leaderboard`):
1-based rank, user display fields, timestamp and the photo blob. -/
structure LBEntry where
  rank : Nat
  name : String
  picture : Option String
  check_in_time : Nat
  photo : Option String
deriving DecidableEq

/-- One entry of a history day (`get_history`): same fields as a
leaderboard entry but with no photo field. -/
structure HistEntry where
  rank : Nat
  name : String
  picture : Option String
  check_in_time : Nat
deriving DecidableEq

/-- One day of the history JSON: the date and its ranked entries. -/
structure HistDay where
  date : Nat
  entries : List HistEntry
deriving DecidableEq

/-- Handler `get_leaderboard` (`app.py` lines 317-338): today's rows, timestamp
ascending, each enumerated entry carrying rank `i + 1`, the owning user's
display fields (resolved through `users`, the `checkin.user` relationship)
and the photo; no write. -/
def leaderboardOp (users : String → UserInfo) (today : Nat) (L : Ledger α) :
    (Nat × List LBEntry) × Ledger α :=
  ((today,
    (dayRows today L).enum.map fun p =>
      { rank := p.1 + 1
        name := (users p.2.user_id).name
        picture := (users p.2.user_id).picture
        check_in_time := p.2.check_in_time
        photo := p.2.photo_data }), L)

/-- The query `SELECT DISTINCT check_in_date ... ORDER BY ... DESC LIMIT 30`
(`get_history`): the distinct dates present in the ledger, most recent
first, truncated to 30. -/
def distinctDatesDesc (L : Ledger α) : List Nat :=
  (((L.map (·.check_in_date)).dedup).insertionSort fun a b => b ≤ a).take 30

/-- Handler `get_history` (`app.py` lines 340-369): for each of the (at most 30)
distinct dates, the same timestamp-ascending enumeration as the daily
leaderboard, but building entries without the photo field; no write. -/
def historyOp (users : String → UserInfo) (L : Ledger α) :
    List HistDay × Ledger α :=
  ((distinctDatesDesc L).map fun day =>
    { date := day
      entries := (dayRows day L).enum.map fun p =>
        { rank := p.1 + 1
          name := (users p.2.user_id).name
          picture := (users p.2.user_id).picture
          check_in_time := p.2.check_in_time } }, L)

/-- Projection from a leaderboard entry to a history entry: drop the photo
field, keep everything else. -/
def dropPhoto (e : LBEntry) : HistEntry :=
  { rank := e.rank, name := e.name, picture := e.picture
    check_in_time := e.check_in_time }

/-- The uniqueness invariant of the `unique_user_date` constraint
(`models.py`): no two committed rows share a (user_id, check_in_date)
pair. -/
def UniqueLedger (L : Ledger α) : Prop :=
  L.Pairwise fun a b => ¬(a.user_id = b.user_id ∧ a.check_in_date = b.check_in_date)

/-! The geofence evaluator over the reals (`app.py` lines 17-23, 73-86). -/

/-- Python's `math.radians`: degrees to radians. -/
noncomputable def radians (x : ℝ) : ℝ := x * Real.pi / 180

/-- Python's `math.atan2 y x`: the angle of the point (x, y), following the usual
quadrant convention of the C library function (`atan2(0, 0) = 0`). -/
noncomputable def atan2 (y x : ℝ) : ℝ :=
  if 0 < x then Real.arctan (y / x)
  else if x < 0 then
    (if 0 ≤ y then Real.arctan (y / x) + Real.pi
     else Real.arctan (y / x) - Real.pi)
  else if 0 < y then Real.pi / 2
  else if y < 0 then -(Real.pi / 2)
  else 0

/-- Earth's radius in meters (`R` in `haversine_distance`). -/
def EARTH_RADIUS_M : ℝ := 6371000

/-- The intermediate quantity `a` of `haversine_distance`:
`sin(delta_phi/2)**2 + cos(phi1)*cos(phi2)*sin(delta_lambda/2)**2`. -/
noncomputable def haversineA (lat1 lon1 lat2 lon2 : ℝ) : ℝ :=
  Real.sin (radians (lat2 - lat1) / 2) ^ 2 +
    Real.cos (radians lat1) * Real.cos (radians lat2) *
      Real.sin (radians (lon2 - lon1) / 2) ^ 2

/-- The intermediate quantity `c` of `haversine_distance`:
`2 * atan2(sqrt(a), sqrt(1 - a))`. -/
noncomputable def haversineC (lat1 lon1 lat2 lon2 : ℝ) : ℝ :=
  2 * atan2 (Real.sqrt (haversineA lat1 lon1 lat2 lon2))
      (Real.sqrt (1 - haversineA lat1 lon1 lat2 lon2))

/-- The function `haversine_distance(lat1, lon1, lat2, lon2)` (`app.py` lines 73-86):
great-circle distance in meters, `R * c`. -/
noncomputable def haversine_distance (lat1 lon1 lat2 lon2 : ℝ) : ℝ :=
  EARTH_RADIUS_M * haversineC lat1 lon1 lat2 lon2

/-- Constant `SCIENCE_PARK_LAT` (`app.py` line 18). -/
def SCIENCE_PARK_LAT : ℝ := 52.3547

/-- Constant `SCIENCE_PARK_LNG` (`app.py` line 19). -/
def SCIENCE_PARK_LNG : ℝ := 4.9543

/-- Constant `ALLOWED_RADIUS_METERS` (`app.py` line 23). -/
def ALLOWED_RADIUS_METERS : ℝ := 10000

/-- The distance actually computed by both route handlers:
`haversine_distance(lat, lng, SCIENCE_PARK_LAT, SCIENCE_PARK_LNG)`. -/
noncomputable def distanceToSciencePark (lat lng : ℝ) : ℝ :=
  haversine_distance lat lng SCIENCE_PARK_LAT SCIENCE_PARK_LNG

/-! Concurrency model for two simultaneous check-in transactions.

Two requests running the `checkin` handler concurrently against one
database.  Each transaction performs, in order, the already-checked-in
read (`CheckIn.query.filter_by(...).first()`, `app.py` lines 267-270) and
then the commit of its insert (`db.session.commit()`, line 288), which the
storage layer serialises and guards with the `unique_user_date`
constraint.  Validation (coordinates, photo, geofence) touches no shared
state, so the model starts each transaction after a successful
validation. -/

/-- What one concurrent check-in transaction observes at the end. -/
inductive TxOutcome where
  | success (check_in_time : Nat)
  | already (check_in_time : Nat)
  | integrityError
deriving DecidableEq

/-- Does the outcome read as the "already checked in" error response? -/
def TxOutcome.isAlready : TxOutcome → Bool
  | .already _ => true
  | _ => false

/-- Does the outcome read as a successful check-in? -/
def TxOutcome.isSuccess : TxOutcome → Bool
  | .success _ => true
  | _ => false

/-- The private state of one in-flight check-in transaction: whether the
existence read has run, and the response once determined. -/
structure TxState where
  readDone : Bool
  result : Option TxOutcome
deriving DecidableEq

/-- A transaction that has not started. -/
def TxState.init : TxState := ⟨false, none⟩

/-- One atomic step of a check-in transaction for the row `c` against the
shared ledger: first the existence read (a hit answers "already checked
in" with the found row's timestamp, `app.py` lines 272-276), then the
constraint-guarded commit (success, or the unhandled `IntegrityError` when
the constraint rejects the insert). A finished transaction does nothing. -/
def txStep (c : CheckInRec α) (db : Ledger α) (t : TxState) :
    Ledger α × TxState :=
  if t.result.isSome then (db, t)
  else if t.readDone = false then
    match findExisting c.user_id c.check_in_date db with
    | some existing => (db, ⟨true, some (.already existing.check_in_time)⟩)
    | none => (db, ⟨true, none⟩)
  else
    match dbInsert c db with
    | some db2 => (db2, ⟨true, some (.success c.check_in_time)⟩)
    | none => (db, ⟨true, some .integrityError⟩)

/-- Run two interleaved check-in transactions for rows `c1`, `c2` under a
schedule: `true` steps the first transaction, `false` the second. -/
def runTwo (c1 c2 : CheckInRec α) :
    List Bool → Ledger α × TxState × TxState → Ledger α × TxState × TxState
  | [], s => s
  | b :: rest, (db, t1, t2) =>
    if b then
      let s := txStep c1 db t1
      runTwo c1 c2 rest (s.1, s.2, t2)
    else
      let s := txStep c2 db t2
      runTwo c1 c2 rest (s.1, t1, s.2)

/-- Number of committed rows for one (user, date) pair. -/
def countPair (u : String) (d : Nat) (L : Ledger α) : Nat :=
  (L.filter fun r => r.user_id == u && r.check_in_date == d).length

/-- Classifier for the error taxonomy: is this outcome a missing/malformed
required-field error (HTTP 400 before any geofence or ledger work)? -/
def CheckinResult.isValidationError : CheckinResult β → Bool
  | .missingCoords => true
  | .photoRequired => true
  | _ => false

/-- Classifier: is this outcome the geofence (out-of-range) error? -/
def CheckinResult.isTooFar : CheckinResult β → Bool
  | .tooFar _ _ => true
  | _ => false

/-- How many of the two transactions have succeeded. -/
def succCount (t : TxState) : Nat :=
  match t.result with
  | some (.success _) => 1
  | _ => 0

/-- The transaction finished with a failure (either the already-checked-in
response or the unhandled constraint violation). -/
def txFailed (t : TxState) : Prop :=
  match t.result with
  | some (.already _) => True
  | some .integrityError => True
  | _ => False

/-! Concrete fixtures used by the witness theorems. -/

/-- A one-character photo payload. -/
def somePhoto : String := String.mk ['a']

/-- A concrete user id. -/
def uidA : String := String.mk ['u']

/-- A second concrete user id. -/
def uidB : String := String.mk ['v']

/-- A constant display-name table for witnesses. -/
def usersFix : String → UserInfo := fun _ => ⟨String.mk ['n'], none⟩

/-- A concrete committed row: user `uidA`, day 1, timestamp 5. -/
def recA : CheckInRec Nat := ⟨uidA, 1, 5, 0, 0, some somePhoto⟩

/-- A concrete committed row: user `uidB`, day 1, timestamp 9. -/
def recB : CheckInRec Nat := ⟨uidB, 1, 9, 0, 0, some somePhoto⟩

/-- A concrete committed row: user `uidA`, day 2, timestamp 7. -/
def recC : CheckInRec Nat := ⟨uidA, 2, 7, 0, 0, some somePhoto⟩

/-- A second check-in attempt row for the same (user, day) as `recA`,
with its own timestamp. -/
def recA2 : CheckInRec Nat := ⟨uidA, 1, 8, 0, 0, some somePhoto⟩

/-- Inductive invariant of the two-transaction interleaving for the shared
pair (u, d): the number of committed rows for the pair equals the number
of successful transactions and never exceeds one; a failed transaction
implies the other has already committed; and an already-checked-in
response always quotes the timestamp of a committed row for the pair. -/
def TwoTxInv (u : String) (d : Nat) (db : Ledger α) (t1 t2 : TxState) : Prop :=
  countPair u d db = succCount t1 + succCount t2 ∧
  countPair u d db ≤ 1 ∧
  (txFailed t1 → succCount t2 = 1) ∧
  (txFailed t2 → succCount t1 = 1) ∧
  (∀ ts, t1.result = some (.already ts) →
    ∃ r ∈ db, r.user_id = u ∧ r.check_in_date = d ∧ r.check_in_time = ts) ∧
  (∀ ts, t2.result = some (.already ts) →
    ∃ r ∈ db, r.user_id = u ∧ r.check_in_date = d ∧ r.check_in_time = ts)

/-! Helper lemmas about the storage primitives. -/

theorem findExisting_none_iff {user : String} {today : Nat} {L : Ledger α} :
    findExisting user today L = none ↔
      ∀ c ∈ L, ¬(c.user_id = user ∧ c.check_in_date = today) := by
  unfold findExisting
  rw [List.find?_eq_none]
  constructor
  · intro h c hc hcontra
    exact h c hc (by simp [hcontra.1, hcontra.2])
  · intro h c hc hbeq
    exact h c hc (by simpa using hbeq)

theorem findExisting_some {user : String} {today : Nat} {L : Ledger α}
    {c : CheckInRec α} (h : findExisting user today L = some c) :
    c ∈ L ∧ c.user_id = user ∧ c.check_in_date = today := by
  refine ⟨List.mem_of_find?_eq_some h, ?_⟩
  have := List.find?_some h
  simpa using this

theorem dbInsert_some {c : CheckInRec α} {L L2 : Ledger α}
    (h : dbInsert c L = some L2) :
    L2 = L ++ [c] ∧
      ∀ r ∈ L, ¬(r.user_id = c.user_id ∧ r.check_in_date = c.check_in_date) := by
  unfold dbInsert at h
  split at h
  · exact absurd h (by simp)
  · next hany =>
    refine ⟨(Option.some_injective _ h).symm, ?_⟩
    intro r hr hcontra
    exact hany (List.any_eq_true.mpr ⟨r, hr, by simp [hcontra.1, hcontra.2]⟩)

theorem dbInsert_none {c : CheckInRec α} {L : Ledger α}
    (h : dbInsert c L = none) :
    ∃ r ∈ L, r.user_id = c.user_id ∧ r.check_in_date = c.check_in_date := by
  unfold dbInsert at h
  split at h
  · next hany =>
    obtain ⟨r, hr, hb⟩ := List.any_eq_true.mp hany
    exact ⟨r, hr, by simpa using hb⟩
  · exact absurd h (by simp)

theorem uniqueLedger_append {L : Ledger α} {c : CheckInRec α}
    (h : UniqueLedger L)
    (hc : ∀ r ∈ L, ¬(r.user_id = c.user_id ∧ r.check_in_date = c.check_in_date)) :
    UniqueLedger (L ++ [c]) := by
  unfold UniqueLedger at h ⊢
  rw [List.pairwise_append]
  refine ⟨h, List.pairwise_singleton _ _, ?_⟩
  intro a ha b hb
  rw [List.mem_singleton] at hb
  subst hb
  exact hc a ha

/-! Claim theorems. -/

/-- C6: a check-in submission lacking a photo payload (absent key, and
likewise the falsy empty string) fails with the dedicated photo validation
error — a validation error that is not the geofence error — and the ledger
is unchanged, for every location and every ledger. -/
theorem missing_photo_validation_error [LinearOrder β]
    (distfn : α → α → β) (radius : β) (user : String) (today now : Nat)
    (lat lng : α) (L : Ledger α) :
    checkinOp distfn radius user today now (some ⟨some lat, some lng, none⟩) L
      = (.photoRequired, L) ∧
    checkinOp distfn radius user today now
        (some ⟨some lat, some lng, some (String.mk [])⟩) L
      = (.photoRequired, L) ∧
    (CheckinResult.photoRequired : CheckinResult β).isValidationError = true ∧
    (CheckinResult.photoRequired : CheckinResult β).isTooFar = false :=
  ⟨rfl, rfl, rfl, rfl⟩

/-- C9: the pre-flight verify, the status read, the daily leaderboard and
the history view leave the ledger exactly as it was, for every starting
ledger. -/
theorem reads_do_not_mutate_ledger [LinearOrder β]
    (distfn : α → α → β) (radius : β) (user : String) (today : Nat)
    (data : Option (CheckinData α)) (users : String → UserInfo)
    (L : Ledger α) :
    (verifyOp distfn radius user today data L).2 = L ∧
    (statusOp user today L).2 = L ∧
    (leaderboardOp users today L).2 = L ∧
    (historyOp users L).2 = L := by
  refine ⟨?_, rfl, rfl, rfl⟩
  rcases data with _ | ⟨(_ | lat), (_ | lng), ph⟩ <;> try rfl
  simp only [verifyOp]
  split
  · rfl
  · split <;> rfl

/-- C7: when the submission is well-formed (coordinates and photo present,
geofence satisfied) and a check-in already exists for (user, date), both
the completing check-in and the pre-flight verify answer the
already-checked-in error carrying exactly the existing row's completion
timestamp; the row the timestamp comes from is a committed check-in of
that user and date. -/
theorem already_checked_in_carries_timestamp [LinearOrder β]
    (distfn : α → α → β) (radius : β) (user : String) (today now : Nat)
    (lat lng : α) (p : String) (L : Ledger α) (c : CheckInRec α)
    (hfound : findExisting user today L = some c)
    (hdist : ¬ radius < distfn lat lng)
    (hp : p.isEmpty = false) :
    (checkinOp distfn radius user today now
        (some ⟨some lat, some lng, some p⟩) L).1
      = .alreadyCheckedIn c.check_in_time ∧
    (verifyOp distfn radius user today
        (some ⟨some lat, some lng, some p⟩) L).1
      = .alreadyCheckedIn c.check_in_time ∧
    c ∈ L ∧ c.user_id = user ∧ c.check_in_date = today := by
  obtain ⟨hmem, hcu, hcd⟩ := findExisting_some hfound
  refine ⟨?_, ?_, hmem, hcu, hcd⟩
  · simp only [checkinOp, photoMissing, hp, Bool.false_eq_true, if_false,
      if_neg hdist, hfound]
  · simp only [verifyOp, if_neg hdist, hfound]

/-- C7 witness: concrete instance — user `uidA` already has the committed
row `recA` on day 1 with timestamp 5; a second well-formed submission is
answered with the already-checked-in error carrying 5. -/
theorem already_checked_in_carries_timestamp_witness :
    (findExisting uidA 1 [recA] = some recA ∧
      ¬ (10000 : Nat) < 0 ∧ somePhoto.isEmpty = false) ∧
    (checkinOp (fun _ _ => (0 : Nat)) 10000 uidA 1 8
        (some ⟨some (0 : Nat), some 0, some somePhoto⟩) [recA]).1
      = .alreadyCheckedIn recA.check_in_time :=
  ⟨⟨by decide, by decide, by decide⟩,
    (already_checked_in_carries_timestamp (fun _ _ => (0 : Nat)) 10000 uidA 1 8
      0 0 somePhoto [recA] recA (by decide) (by decide) (by decide)).1⟩

theorem enum_rank_map (l : List γ) :
    (l.enum.map fun p => p.1 + 1) = List.range' 1 l.length := by
  rw [show (fun (p : Nat × γ) => p.1 + 1) = (fun x => x + 1) ∘ Prod.fst from rfl,
    ← List.map_map, List.enum_map_fst, List.range'_eq_map_range]
  exact List.map_congr_left fun a _ => Nat.add_comm a 1

theorem enum_map_snd_comp (l : List γ) (f : γ → δ) :
    (l.enum.map fun p => f p.2) = l.map f := by
  rw [show (fun (p : Nat × γ) => f p.2) = f ∘ Prod.snd from rfl,
    ← List.map_map, List.enum_map_snd]

theorem dayRows_sorted (day : Nat) (L : Ledger α) :
    (dayRows day L).Pairwise fun a b => a.check_in_time ≤ b.check_in_time := by
  unfold dayRows
  haveI : IsTotal (CheckInRec α)
      (fun a b => a.check_in_time ≤ b.check_in_time) :=
    ⟨fun a b => Nat.le_total _ _⟩
  haveI : IsTrans (CheckInRec α)
      (fun a b => a.check_in_time ≤ b.check_in_time) :=
    ⟨fun _ _ _ h1 h2 => Nat.le_trans h1 h2⟩
  exact List.sorted_insertionSort _ _

/-- C4: the daily leaderboard lists exactly the committed check-ins of the
requested date, ascending by completion timestamp, with ranks equal to the
1-based position — contiguous from 1 — and an empty ledger yields an empty
leaderboard. -/
theorem daily_leaderboard_ranked (users : String → UserInfo) (today : Nat)
    (L : Ledger α) :
    ((leaderboardOp users today L).1.2).map (·.rank)
      = List.range' 1 ((leaderboardOp users today L).1.2).length ∧
    (((leaderboardOp users today L).1.2).map (·.check_in_time)).Pairwise
      (· ≤ ·) ∧
    ((leaderboardOp users today L).1.2).map
        (fun e => (e.name, e.picture, e.check_in_time, e.photo))
      = (dayRows today L).map
        (fun c => ((users c.user_id).name, (users c.user_id).picture,
          c.check_in_time, c.photo_data)) ∧
    (dayRows today L).Perm (L.filter fun c => c.check_in_date == today) ∧
    (leaderboardOp users today ([] : Ledger α)).1.2 = [] := by
  refine ⟨?_, ?_, ?_, List.perm_insertionSort _ _, by simp [leaderboardOp, dayRows]⟩
  · simp only [leaderboardOp, List.map_map, List.length_map, List.enum_length]
    exact enum_rank_map _
  · simp only [leaderboardOp, List.map_map]
    rw [show ((fun e : LBEntry => e.check_in_time) ∘ fun p : Nat × CheckInRec α =>
        ({ rank := p.1 + 1, name := (users p.2.user_id).name,
           picture := (users p.2.user_id).picture,
           check_in_time := p.2.check_in_time,
           photo := p.2.photo_data } : LBEntry))
      = fun p : Nat × CheckInRec α => p.2.check_in_time from rfl]
    rw [enum_map_snd_comp (dayRows today L) (·.check_in_time)]
    exact (List.pairwise_map).mpr (dayRows_sorted today L)
  · simp only [leaderboardOp, List.map_map]
    exact enum_map_snd_comp (dayRows today L)
      (fun c => ((users c.user_id).name, (users c.user_id).picture,
        c.check_in_time, c.photo_data))

theorem distinctDatesDesc_pairwise (L : Ledger α) :
    (distinctDatesDesc L).Pairwise (· > ·) := by
  unfold distinctDatesDesc
  refine List.Pairwise.sublist (List.take_sublist _ _) ?_
  have hnodup :
      (((L.map (·.check_in_date)).dedup).insertionSort fun a b => b ≤ a).Nodup :=
    (List.perm_insertionSort _ _).symm.nodup (List.nodup_dedup _)
  haveI : IsTotal Nat (fun a b => b ≤ a) := ⟨fun a b => Nat.le_total b a⟩
  haveI : IsTrans Nat (fun a b => b ≤ a) :=
    ⟨fun _ _ _ h1 h2 => Nat.le_trans h2 h1⟩
  have hsorted :
      (((L.map (·.check_in_date)).dedup).insertionSort fun a b => b ≤ a).Pairwise
        fun a b : Nat => b ≤ a :=
    List.sorted_insertionSort _ _
  refine List.Pairwise.imp ?_ (hsorted.and hnodup)
  intro a b hab
  exact lt_of_le_of_ne hab.1 (Ne.symm hab.2)

/-- C5: the history view returns at most 30 days, with strictly descending
(hence duplicate-free) dates, and each day's entries are exactly the daily
leaderboard of that date with the photo field dropped from every entry. -/
theorem history_window_ranked (users : String → UserInfo) (L : Ledger α) :
    ((historyOp users L).1).length ≤ 30 ∧
    (((historyOp users L).1).map (·.date)).Pairwise (· > ·) ∧
    ∀ day ∈ (historyOp users L).1,
      day.entries = ((leaderboardOp users day.date L).1.2).map dropPhoto := by
  refine ⟨?_, ?_, ?_⟩
  · simp only [historyOp, List.length_map]
    exact List.length_take_le _ _
  · simp only [historyOp, List.map_map]
    exact List.pairwise_map.mpr (distinctDatesDesc_pairwise L)
  · intro day hday
    simp only [historyOp, List.mem_map] at hday
    obtain ⟨d, hd, rfl⟩ := hday
    simp only [leaderboardOp, List.map_map]
    rfl

/-- C5 witness: concrete instance — three committed rows over days 1 and 2
produce a history of two days; day 2's single entry equals its
leaderboard entry with the photo dropped. -/
theorem history_window_ranked_witness :
    ((historyOp usersFix [recA, recB, recC]).1).length ≤ 30 ∧
    (⟨2, [⟨1, String.mk ['n'], none, 7⟩]⟩ : HistDay)
      ∈ (historyOp usersFix [recA, recB, recC]).1 ∧
    HistDay.entries ⟨2, [⟨1, String.mk ['n'], none, 7⟩]⟩
      = ((leaderboardOp usersFix 2 [recA, recB, recC]).1.2).map dropPhoto :=
  ⟨(history_window_ranked usersFix [recA, recB, recC]).1, by decide,
    (history_window_ranked usersFix [recA, recB, recC]).2.2 _ (by decide)⟩

/-- C3: for a well-formed submission, the completing check-in and the
pre-flight verify fail with the out-of-range error exactly when the
computed haversine distance to the reference point strictly exceeds the
allowed radius of 10,000 m; at a distance equal to the radius the geofence
test passes. -/
theorem geofence_boundary_inclusive (user : String) (today now : Nat)
    (lat lng : ℝ) (p : String) (L : Ledger ℝ) (hp : p.isEmpty = false) :
    ((checkinOp distanceToSciencePark ALLOWED_RADIUS_METERS user today now
        (some ⟨some lat, some lng, some p⟩) L).1
      = .tooFar (distanceToSciencePark lat lng) ALLOWED_RADIUS_METERS
      ↔ distanceToSciencePark lat lng > ALLOWED_RADIUS_METERS) ∧
    ((verifyOp distanceToSciencePark ALLOWED_RADIUS_METERS user today
        (some ⟨some lat, some lng, some p⟩) L).1
      = .tooFar (distanceToSciencePark lat lng) ALLOWED_RADIUS_METERS
      ↔ distanceToSciencePark lat lng > ALLOWED_RADIUS_METERS) := by
  constructor
  · by_cases hd :
      ALLOWED_RADIUS_METERS < distanceToSciencePark lat lng
    · simp only [checkinOp, photoMissing, hp, Bool.false_eq_true, if_false,
        if_pos hd]
      simp [hd]
    · simp only [checkinOp, photoMissing, hp, Bool.false_eq_true, if_false,
        if_neg hd]
      rcases hfind : findExisting user today L with _ | c
      · rcases hins : dbInsert ⟨user, today, now, lat, lng, some p⟩ L with _ | L2
        · simp [hfind, hins, hd]
        · simp [hfind, hins, hd]
      · simp [hfind, hd]
  · by_cases hd :
      ALLOWED_RADIUS_METERS < distanceToSciencePark lat lng
    · simp only [verifyOp, if_pos hd]
      simp [hd]
    · simp only [verifyOp, if_neg hd]
      rcases hfind : findExisting user today L with _ | c
      · simp [hfind, hd]
      · simp [hfind, hd]

/-- C3 witness: concrete instance — submission at the point (0, 0) with a
nonempty photo against an empty ledger. -/
theorem geofence_boundary_inclusive_witness :
    somePhoto.isEmpty = false ∧
    (((checkinOp distanceToSciencePark ALLOWED_RADIUS_METERS uidA 1 5
        (some ⟨some (0 : ℝ), some 0, some somePhoto⟩) []).1
      = .tooFar (distanceToSciencePark 0 0) ALLOWED_RADIUS_METERS
      ↔ distanceToSciencePark 0 0 > ALLOWED_RADIUS_METERS) ∧
    ((verifyOp distanceToSciencePark ALLOWED_RADIUS_METERS uidA 1
        (some ⟨some (0 : ℝ), some 0, some somePhoto⟩) []).1
      = .tooFar (distanceToSciencePark 0 0) ALLOWED_RADIUS_METERS
      ↔ distanceToSciencePark 0 0 > ALLOWED_RADIUS_METERS)) :=
  ⟨by decide, geofence_boundary_inclusive uidA 1 5 0 0 somePhoto [] (by decide)⟩

theorem haversineA_comm (a b c d : ℝ) :
    haversineA a b c d = haversineA c d a b := by
  unfold haversineA radians
  rw [show (a - c) * Real.pi / 180 / 2 = -((c - a) * Real.pi / 180 / 2) from by
      ring,
    show (b - d) * Real.pi / 180 / 2 = -((d - b) * Real.pi / 180 / 2) from by
      ring,
    Real.sin_neg, Real.sin_neg]
  ring

theorem haversineA_self (a b : ℝ) : haversineA a b a b = 0 := by
  unfold haversineA radians
  simp

theorem atan2_zero_one : atan2 0 1 = 0 := by
  unfold atan2
  rw [if_pos one_pos]
  simp

theorem haversineA_unit (lat1 lon1 lat2 lon2 : ℝ) :
    0 ≤ haversineA lat1 lon1 lat2 lon2 ∧ haversineA lat1 lon1 lat2 lon2 ≤ 1 := by
  have key : ∀ x y t : ℝ, 0 ≤ t → t ≤ 1 →
      0 ≤ Real.sin ((y - x) / 2) ^ 2 + Real.cos x * Real.cos y * t ∧
        Real.sin ((y - x) / 2) ^ 2 + Real.cos x * Real.cos y * t ≤ 1 := by
    intro x y t ht0 ht1
    have hs : Real.sin ((y - x) / 2) ^ 2 = 1 / 2 - Real.cos (y - x) / 2 := by
      have h := Real.sin_sq_eq_half_sub ((y - x) / 2)
      rwa [show 2 * ((y - x) / 2) = y - x from by ring] at h
    have hsum : Real.sin ((y - x) / 2) ^ 2 + Real.cos x * Real.cos y
        = (1 + Real.cos (x + y)) / 2 := by
      rw [hs, Real.cos_add, Real.cos_sub]
      ring
    have h1 : 0 ≤ (1 + Real.cos (x + y)) / 2 := by
      have := Real.neg_one_le_cos (x + y)
      linarith
    have h2 : (1 + Real.cos (x + y)) / 2 ≤ 1 := by
      have := Real.cos_le_one (x + y)
      linarith
    have hs0 : 0 ≤ Real.sin ((y - x) / 2) ^ 2 := sq_nonneg _
    have hs1 : Real.sin ((y - x) / 2) ^ 2 ≤ 1 := Real.sin_sq_le_one _
    rcases le_or_lt 0 (Real.cos x * Real.cos y) with hC | hC
    · have hCt : Real.cos x * Real.cos y * t ≤ Real.cos x * Real.cos y := by
        nlinarith
      exact ⟨add_nonneg hs0 (mul_nonneg hC ht0), by linarith⟩
    · have hCt : Real.cos x * Real.cos y ≤ Real.cos x * Real.cos y * t := by
        nlinarith
      have hCt0 : Real.cos x * Real.cos y * t ≤ 0 := by nlinarith
      exact ⟨by linarith, by linarith⟩
  have hA : haversineA lat1 lon1 lat2 lon2
      = Real.sin ((radians lat2 - radians lat1) / 2) ^ 2 +
        Real.cos (radians lat1) * Real.cos (radians lat2) *
          Real.sin (radians (lon2 - lon1) / 2) ^ 2 := by
    unfold haversineA
    rw [show radians (lat2 - lat1) = radians lat2 - radians lat1 from by
      unfold radians; ring]
  rw [hA]
  exact key _ _ _ (sq_nonneg _) (Real.sin_sq_le_one _)

theorem atan2_nonneg_le_pi_div_two {y x : ℝ} (hy : 0 ≤ y) (hx : 0 ≤ x) :
    0 ≤ atan2 y x ∧ atan2 y x ≤ Real.pi / 2 := by
  unfold atan2
  rcases lt_or_eq_of_le hx with hx' | hx'
  · rw [if_pos hx']
    have hdiv : (0 : ℝ) ≤ y / x := div_nonneg hy hx'.le
    constructor
    · calc (0 : ℝ) = Real.arctan 0 := Real.arctan_zero.symm
        _ ≤ Real.arctan (y / x) := Real.arctan_strictMono.monotone hdiv
    · exact (Real.arctan_lt_pi_div_two _).le
  · rw [if_neg (by rw [← hx']; exact lt_irrefl 0),
      if_neg (by rw [← hx']; exact lt_irrefl 0)]
    rcases lt_or_eq_of_le hy with hy' | hy'
    · rw [if_pos hy']
      have := Real.pi_pos
      constructor <;> linarith
    · rw [if_neg (by rw [← hy']; exact lt_irrefl 0),
        if_neg (by rw [← hy']; exact lt_irrefl 0)]
      have := Real.pi_pos
      constructor <;> linarith

theorem haversine_distance_range (lat1 lon1 lat2 lon2 : ℝ) :
    0 ≤ haversine_distance lat1 lon1 lat2 lon2 ∧
      haversine_distance lat1 lon1 lat2 lon2 ≤ Real.pi * 6371000 := by
  obtain ⟨ha0, ha1⟩ := atan2_nonneg_le_pi_div_two
    (Real.sqrt_nonneg (haversineA lat1 lon1 lat2 lon2))
    (Real.sqrt_nonneg (1 - haversineA lat1 lon1 lat2 lon2))
  unfold haversine_distance haversineC EARTH_RADIUS_M
  constructor
  · nlinarith
  · nlinarith

/-- C8: the haversine distance is symmetric in the two coordinate pairs,
and vanishes when both pairs coincide. -/
theorem haversine_symm_and_zero (a b c d : ℝ) :
    haversine_distance a b c d = haversine_distance c d a b ∧
    haversine_distance a b a b = 0 := by
  constructor
  · unfold haversine_distance haversineC
    rw [haversineA_comm]
  · unfold haversine_distance haversineC
    rw [haversineA_self]
    simp [atan2_zero_one]

/-- C10 (as amended): for all real latitude and longitude inputs — not
only latitudes within [-90, 90] — the intermediate haversine quantity `a`
lies in [0, 1], so both square-root arguments `a` and `1 - a` are
nonnegative, and the distance always lies in [0, π * 6371000]. -/
theorem haversineA_bounds_all_reals (lat1 lon1 lat2 lon2 : ℝ) :
    0 ≤ haversineA lat1 lon1 lat2 lon2 ∧
    haversineA lat1 lon1 lat2 lon2 ≤ 1 ∧
    0 ≤ 1 - haversineA lat1 lon1 lat2 lon2 ∧
    0 ≤ haversine_distance lat1 lon1 lat2 lon2 ∧
    haversine_distance lat1 lon1 lat2 lon2 ≤ Real.pi * 6371000 := by
  obtain ⟨h0, h1⟩ := haversineA_unit lat1 lon1 lat2 lon2
  obtain ⟨hd0, hd1⟩ := haversine_distance_range lat1 lon1 lat2 lon2
  exact ⟨h0, h1, by linarith, hd0, hd1⟩

/-- C10 counterexample: the claim's second clause is false — there is no
input, latitude out of range or not, making either square-root argument
negative: `a` stays within [0, 1] on all of ℝ⁴. -/
theorem sqrt_arg_negative_outside_range_refuted :
    ¬ ∃ lat1 lon1 lat2 lon2 : ℝ,
      (lat1 < -90 ∨ 90 < lat1 ∨ lat2 < -90 ∨ 90 < lat2) ∧
      (haversineA lat1 lon1 lat2 lon2 < 0 ∨
        1 - haversineA lat1 lon1 lat2 lon2 < 0) := by
  rintro ⟨a, b, c, d, -, h | h⟩
  · exact absurd (haversineA_unit a b c d).1 (not_le.mpr h)
  · have := (haversineA_unit a b c d).2
    linarith

/-- C1: if the ledger satisfies the at-most-one-check-in-per-(user, date)
invariant, it still does after any execution of the check-in operation;
and an attempt for a (user, date) that already has a committed check-in
leaves the ledger exactly as it was (no record is inserted). -/
theorem checkin_preserves_uniqueness [LinearOrder β]
    (distfn : α → α → β) (radius : β) (user : String) (today now : Nat)
    (data : Option (CheckinData α)) (L : Ledger α)
    (h : UniqueLedger L) :
    UniqueLedger (checkinOp distfn radius user today now data L).2 ∧
    (∀ c ∈ L, c.user_id = user → c.check_in_date = today →
      (checkinOp distfn radius user today now data L).2 = L) := by
  rcases data with _ | ⟨(_ | lat), (_ | lng), ph⟩
  · exact ⟨h, fun _ _ _ _ => rfl⟩
  · exact ⟨h, fun _ _ _ _ => rfl⟩
  · exact ⟨h, fun _ _ _ _ => rfl⟩
  · exact ⟨h, fun _ _ _ _ => rfl⟩
  simp only [checkinOp]
  split
  · exact ⟨h, fun _ _ _ _ => rfl⟩
  split
  · exact ⟨h, fun _ _ _ _ => rfl⟩
  split
  · exact ⟨h, fun _ _ _ _ => rfl⟩
  next hfind =>
  split
  · next L2 hins =>
    obtain ⟨hL2, hno⟩ := dbInsert_some hins
    subst hL2
    constructor
    · exact uniqueLedger_append h fun r hr hcontra => hno r hr hcontra
    · intro c hc hcu hcd
      exact absurd ⟨hcu, hcd⟩ (findExisting_none_iff.mp hfind c hc)
  · exact ⟨h, fun _ _ _ _ => rfl⟩

/-- C1 witness: concrete instance — a ledger holding `recA` (user `uidA`,
day 1) is unique; a second attempt by `uidA` on day 1 preserves uniqueness
and inserts nothing. -/
theorem checkin_preserves_uniqueness_witness :
    UniqueLedger [recA] ∧
    (UniqueLedger (checkinOp (fun _ _ => (0 : Nat)) 10000 uidA 1 8
        (some ⟨some (0 : Nat), some 0, some somePhoto⟩) [recA]).2 ∧
      (∀ c ∈ [recA], c.user_id = uidA → c.check_in_date = 1 →
        (checkinOp (fun _ _ => (0 : Nat)) 10000 uidA 1 8
            (some ⟨some (0 : Nat), some 0, some somePhoto⟩) [recA]).2
          = [recA])) :=
  ⟨List.pairwise_singleton _ _,
    checkin_preserves_uniqueness (fun _ _ => (0 : Nat)) 10000 uidA 1 8
      (some ⟨some (0 : Nat), some 0, some somePhoto⟩) [recA]
      (List.pairwise_singleton _ _)⟩

/-! Lemmas about the concurrency model. -/

theorem countPair_pos_of_found {u : String} {d : Nat} {L : Ledger α}
    {e : CheckInRec α} (h : findExisting u d L = some e) :
    1 ≤ countPair u d L := by
  obtain ⟨hm, hcu, hcd⟩ := findExisting_some h
  have : e ∈ L.filter fun r => r.user_id == u && r.check_in_date == d :=
    List.mem_filter.mpr ⟨hm, by simp [hcu, hcd]⟩
  exact List.length_pos_of_mem this

theorem countPair_zero_of_dbInsert_some {c : CheckInRec α} {L L2 : Ledger α}
    (h : dbInsert c L = some L2) :
    countPair c.user_id c.check_in_date L = 0 := by
  obtain ⟨-, hno⟩ := dbInsert_some h
  unfold countPair
  rw [List.length_eq_zero, List.filter_eq_nil_iff]
  intro r hr hpred
  exact hno r hr (by simpa using hpred)

theorem countPair_pos_of_dbInsert_none {c : CheckInRec α} {L : Ledger α}
    (h : dbInsert c L = none) :
    1 ≤ countPair c.user_id c.check_in_date L := by
  obtain ⟨r, hr, hcu, hcd⟩ := dbInsert_none h
  have : r ∈ L.filter fun x =>
      x.user_id == c.user_id && x.check_in_date == c.check_in_date :=
    List.mem_filter.mpr ⟨hr, by simp [hcu, hcd]⟩
  exact List.length_pos_of_mem this

theorem countPair_append_self (c : CheckInRec α) (L : Ledger α) :
    countPair c.user_id c.check_in_date (L ++ [c])
      = countPair c.user_id c.check_in_date L + 1 := by
  unfold countPair
  rw [List.filter_append, List.length_append]
  simp

theorem TwoTxInv.swap {u : String} {d : Nat} {db : Ledger α} {t1 t2 : TxState}
    (h : TwoTxInv u d db t1 t2) : TwoTxInv u d db t2 t1 := by
  obtain ⟨h1, h2, h3, h4, h5, h6⟩ := h
  exact ⟨by omega, h2, h4, h3, h6, h5⟩

theorem txStep_done_eq (c : CheckInRec α) (db : Ledger α) (rd : Bool)
    (o : TxOutcome) : txStep c db ⟨rd, some o⟩ = (db, ⟨rd, some o⟩) := rfl

theorem txStep_read_eq (c : CheckInRec α) (db : Ledger α) :
    txStep c db ⟨false, none⟩ =
      match findExisting c.user_id c.check_in_date db with
      | some e => (db, ⟨true, some (.already e.check_in_time)⟩)
      | none => (db, ⟨true, none⟩) := rfl

theorem txStep_commit_eq (c : CheckInRec α) (db : Ledger α) :
    txStep c db ⟨true, none⟩ =
      match dbInsert c db with
      | some db2 => (db2, ⟨true, some (.success c.check_in_time)⟩)
      | none => (db, ⟨true, some .integrityError⟩) := rfl

theorem txStep_inv {u : String} {d : Nat} {c : CheckInRec α}
    (hcu : c.user_id = u) (hcd : c.check_in_date = d)
    {db : Ledger α} {t1 t2 : TxState} (h : TwoTxInv u d db t1 t2) :
    TwoTxInv u d (txStep c db t1).1 (txStep c db t1).2 t2 := by
  obtain ⟨h1, h2, h3, h4, h5, h6⟩ := h
  rcases t1 with ⟨rd, res⟩
  rcases res with _ | o
  case mk.some =>
    rw [txStep_done_eq]
    exact ⟨h1, h2, h3, h4, h5, h6⟩
  case mk.none =>
  have h1' : countPair u d db = succCount t2 := by simpa [succCount] using h1
  cases rd
  case false =>
    rw [txStep_read_eq, hcu, hcd]
    rcases hfind : findExisting u d db with _ | e
    · refine ⟨?_, h2, ?_, ?_, ?_, h6⟩
      · show countPair u d db = succCount ⟨true, none⟩ + succCount t2
        simpa [succCount] using h1'
      · intro hf
        exact hf.elim
      · intro hf
        exact absurd (h4 hf) (by simp [succCount])
      · intro ts hts
        exact Option.noConfusion hts
    · have hpos := countPair_pos_of_found hfind
      obtain ⟨hm, hcu', hcd'⟩ := findExisting_some hfind
      refine ⟨?_, h2, ?_, ?_, ?_, h6⟩
      · show countPair u d db
          = succCount ⟨true, some (.already e.check_in_time)⟩ + succCount t2
        simpa [succCount] using h1'
      · intro _
        omega
      · intro hf
        exact absurd (h4 hf) (by simp [succCount])
      · intro ts hts
        exact ⟨e, hm, hcu', hcd',
          TxOutcome.already.inj (Option.some.inj hts)⟩
  case true =>
    rw [txStep_commit_eq]
    rcases hins : dbInsert c db with _ | db2
    · have hpos : 1 ≤ countPair u d db := by
        have := countPair_pos_of_dbInsert_none hins
        rwa [hcu, hcd] at this
      refine ⟨?_, h2, ?_, ?_, ?_, h6⟩
      · show countPair u d db
          = succCount ⟨true, some .integrityError⟩ + succCount t2
        simpa [succCount] using h1'
      · intro _
        omega
      · intro hf
        exact absurd (h4 hf) (by simp [succCount])
      · intro ts hts
        exact TxOutcome.noConfusion (Option.some.inj hts)
    · obtain ⟨hdb2, -⟩ := dbInsert_some hins
      subst hdb2
      have hzero : countPair u d db = 0 := by
        have := countPair_zero_of_dbInsert_some hins
        rwa [hcu, hcd] at this
      have hcnt : countPair u d (db ++ [c]) = countPair u d db + 1 := by
        have := countPair_append_self c db
        rwa [hcu, hcd] at this
      refine ⟨?_, ?_, ?_, ?_, ?_, ?_⟩
      · show countPair u d (db ++ [c])
          = succCount ⟨true, some (.success c.check_in_time)⟩ + succCount t2
        have hs1 : succCount ⟨true, some (.success c.check_in_time)⟩ = 1 := rfl
        omega
      · show countPair u d (db ++ [c]) ≤ 1
        omega
      · intro hf
        exact hf.elim
      · intro _
        rfl
      · intro ts hts
        exact TxOutcome.noConfusion (Option.some.inj hts)
      · intro ts hts
        obtain ⟨r, hr, hrest⟩ := h6 ts hts
        exact ⟨r, List.mem_append_left _ hr, hrest⟩

theorem runTwo_inv {u : String} {d : Nat} {c1 c2 : CheckInRec α}
    (hcu1 : c1.user_id = u) (hcd1 : c1.check_in_date = d)
    (hcu2 : c2.user_id = u) (hcd2 : c2.check_in_date = d) :
    ∀ (sched : List Bool) {db : Ledger α} {t1 t2 : TxState},
      TwoTxInv u d db t1 t2 →
      TwoTxInv u d (runTwo c1 c2 sched (db, t1, t2)).1
        (runTwo c1 c2 sched (db, t1, t2)).2.1
        (runTwo c1 c2 sched (db, t1, t2)).2.2
  | [], _, _, _, h => h
  | b :: rest, db, t1, t2, h => by
    cases b
    case true =>
      exact runTwo_inv hcu1 hcd1 hcu2 hcd2 rest (txStep_inv hcu1 hcd1 h)
    case false =>
      exact runTwo_inv hcu1 hcd1 hcu2 hcd2 rest
        ((txStep_inv hcu2 hcd2 h.swap).swap)

/-- C2 (as amended): for every interleaving of two concurrent check-in
transactions for the same (user, date) — starting from a database holding
no row for that pair — under which both transactions complete, exactly one
succeeds; the other observes either the already-checked-in error (whose
timestamp is that of a committed row for the pair) or the unhandled
storage-layer uniqueness violation; and exactly one row for the pair is
committed. -/
theorem concurrent_checkin_exactly_one_success (c1 c2 : CheckInRec α)
    (hu : c2.user_id = c1.user_id) (hd : c2.check_in_date = c1.check_in_date)
    (db : Ledger α) (h0 : countPair c1.user_id c1.check_in_date db = 0)
    (sched : List Bool) (o1 o2 : TxOutcome)
    (h1 : (runTwo c1 c2 sched (db, .init, .init)).2.1.result = some o1)
    (h2 : (runTwo c1 c2 sched (db, .init, .init)).2.2.result = some o2) :
    ((o1.isSuccess = true ∧ o2.isSuccess = false) ∨
      (o1.isSuccess = false ∧ o2.isSuccess = true)) ∧
    countPair c1.user_id c1.check_in_date
      (runTwo c1 c2 sched (db, .init, .init)).1 = 1 ∧
    (∀ ts, o1 = .already ts ∨ o2 = .already ts →
      ∃ r ∈ (runTwo c1 c2 sched (db, .init, .init)).1,
        r.user_id = c1.user_id ∧ r.check_in_date = c1.check_in_date ∧
          r.check_in_time = ts) := by
  have hinit : TwoTxInv c1.user_id c1.check_in_date db .init .init := by
    refine ⟨by simpa [succCount, TxState.init] using h0, by omega, ?_, ?_, ?_, ?_⟩
    · intro hf
      exact hf.elim
    · intro hf
      exact hf.elim
    · intro ts hts
      exact Option.noConfusion hts
    · intro ts hts
      exact Option.noConfusion hts
  have hfin := runTwo_inv rfl rfl hu hd sched hinit
  obtain ⟨f1, f2, f3, f4, f5, f6⟩ := hfin
  have e1 : succCount (runTwo c1 c2 sched (db, .init, .init)).2.1
      = if o1.isSuccess then 1 else 0 := by
    unfold succCount
    rw [h1]
    cases o1 <;> rfl
  have e2 : succCount (runTwo c1 c2 sched (db, .init, .init)).2.2
      = if o2.isSuccess then 1 else 0 := by
    unfold succCount
    rw [h2]
    cases o2 <;> rfl
  have w1 : ¬ o1.isSuccess = true → txFailed (runTwo c1 c2 sched (db, .init, .init)).2.1 := by
    intro hn
    unfold txFailed
    rw [h1]
    cases o1
    · exact absurd rfl hn
    · trivial
    · trivial
  have w2 : ¬ o2.isSuccess = true → txFailed (runTwo c1 c2 sched (db, .init, .init)).2.2 := by
    intro hn
    unfold txFailed
    rw [h2]
    cases o2
    · exact absurd rfl hn
    · trivial
    · trivial
  have hone : (o1.isSuccess = true ∧ o2.isSuccess = false) ∨
      (o1.isSuccess = false ∧ o2.isSuccess = true) := by
    by_cases s1 : o1.isSuccess = true
    · by_cases s2 : o2.isSuccess = true
      · rw [e1, s1, e2, s2] at f1
        simp at f1
        omega
      · exact Or.inl ⟨s1, Bool.not_eq_true _ ▸ s2⟩
    · have hfail := w1 s1
      have := f3 hfail
      by_cases s2 : o2.isSuccess = true
      · exact Or.inr ⟨Bool.not_eq_true _ ▸ s1, s2⟩
      · rw [e2] at this
        rw [if_neg s2] at this
        exact absurd this (by omega)
  refine ⟨hone, ?_, ?_⟩
  · rw [e1, e2] at f1
    rcases hone with ⟨s1, s2⟩ | ⟨s1, s2⟩ <;>
      rw [s1, s2] at f1 <;> simpa using f1
  · intro ts hts
    rcases hts with hts | hts
    · exact f5 ts (by rw [h1, hts])
    · exact f6 ts (by rw [h2, hts])

/-- C2 witness: concrete instance — transaction 1 runs to completion first
(schedule T1-read, T1-commit, T2-read, T2-step), so the loser observes the
already-checked-in error carrying the winner's timestamp 5. -/
theorem concurrent_checkin_exactly_one_success_witness :
    (recA2.user_id = recA.user_id ∧ recA2.check_in_date = recA.check_in_date ∧
      countPair recA.user_id recA.check_in_date ([] : Ledger Nat) = 0 ∧
      (runTwo recA recA2 [true, true, false, false]
        ([], .init, .init)).2.1.result = some (.success 5) ∧
      (runTwo recA recA2 [true, true, false, false]
        ([], .init, .init)).2.2.result = some (.already 5)) ∧
    ((((TxOutcome.success 5).isSuccess = true ∧
        (TxOutcome.already 5).isSuccess = false) ∨
      ((TxOutcome.success 5).isSuccess = false ∧
        (TxOutcome.already 5).isSuccess = true)) ∧
     countPair recA.user_id recA.check_in_date
       (runTwo recA recA2 [true, true, false, false] ([], .init, .init)).1 = 1 ∧
     (∀ ts, TxOutcome.success 5 = .already ts ∨ TxOutcome.already 5 = .already ts →
       ∃ r ∈ (runTwo recA recA2 [true, true, false, false] ([], .init, .init)).1,
         r.user_id = recA.user_id ∧ r.check_in_date = recA.check_in_date ∧
           r.check_in_time = ts)) :=
  ⟨⟨by decide, by decide, by decide, by decide, by decide⟩,
    concurrent_checkin_exactly_one_success recA recA2 (by decide) (by decide)
      [] (by decide) [true, true, false, false] (.success 5) (.already 5)
      (by decide) (by decide)⟩

/-- C2 counterexample: under the interleaving T1-read, T2-read, T1-commit,
T2-commit both reads see no existing row, the first commit wins, and the
loser's outcome is the unhandled storage constraint violation — not the
already-checked-in error the claim promises. -/
theorem concurrent_loser_observes_integrity_error :
    (runTwo recA recA2 [true, false, true, false]
      (([] : Ledger Nat), .init, .init)).2.1.result = some (.success 5) ∧
    (runTwo recA recA2 [true, false, true, false]
      (([] : Ledger Nat), .init, .init)).2.2.result = some .integrityError ∧
    TxOutcome.integrityError.isAlready = false ∧
    TxOutcome.integrityError.isSuccess = false := by decide

end JochiesLeague
